import Mathlib

/-!
Shallow embedding of the `ncrs` parsers (src/data.rs, src/gff.rs, src/fasta.rs).

IO is abstracted away: both loaders are modelled over the ordered list of
text lines of the input stream (line terminators already stripped, as the
source strips them before classification).  `anyhow` errors are modelled by
explicit error enumerations; wrapping with file/line context does not change
which record fails, so errors carry the field-level cause only.
-/

deriving instance DecidableEq for Except

namespace Ncrs

/-- `Symbol` from src/data.rs (variant order as in the source). -/
inductive Symbol where
  | other
  | adenine
  | thymine
  | cytosine
  | guanine
deriving DecidableEq

/-- `impl Into<u8> for Symbol` from src/data.rs. -/
def symbolToU8 : Symbol → Nat
  | .adenine => 0
  | .thymine => 1
  | .cytosine => 2
  | .guanine => 3
  | .other => 4

/-- `Scaffold` from src/data.rs. -/
structure Scaffold where
  name : String
  sequence : List Symbol
deriving DecidableEq

/-- `Scaffold::new`. -/
def Scaffold.new (name : String) (sequence : List Symbol) : Scaffold :=
  ⟨name, sequence⟩

/-- `Feature` from src/data.rs. -/
inductive Feature where
  | exon
  | cds
  | startCodon
  | stopCodon
deriving DecidableEq

/-- `Strand` from src/data.rs. -/
inductive Strand where
  | positive
  | negative
deriving DecidableEq

/-- `Phase` from src/data.rs. -/
inductive Phase where
  | zero
  | one
  | two
deriving DecidableEq

/-- `Annotation` from src/data.rs.  Rust's `end` field is named `end_` here
because `end` is a Lean keyword; `score` is `u32`, `start`/`end` are `usize`,
both modelled as `Nat` (the wire parsers below enforce the machine bounds). -/
structure Annotation where
  scaffold : String
  source : String
  feature : Feature
  score : Option Nat
  strand : Strand
  phase : Option Phase
  start : Nat
  end_ : Nat
  attributes : String
deriving DecidableEq

/-- `Annotation::new` from src/data.rs: plain field assignment, no checks. -/
def Annotation.new (scaffold source : String) (feature : Feature)
    (score : Option Nat) (strand : Strand) (phase : Option Phase)
    (start end_ : Nat) (attributes : String) : Annotation :=
  ⟨scaffold, source, feature, score, strand, phase, start, end_, attributes⟩

/-- Decidable "is `Ok`" test on `Except`. -/
def isOkE {ε α : Type} : Except ε α → Bool
  | .ok _ => true
  | .error _ => false

/-! ## Annotation (GFF) parser, src/gff.rs -/

/-- Field-level causes of `parse_gff_line` failures (the `anyhow!` messages
of src/gff.rs, one constructor per distinct message). -/
inductive GffError where
  | columnCount (expected actual : Nat)
  | invalidStrand (token : String)
  | invalidScore (token : String)
  | invalidEnd (token : String)
  | invalidStart (token : String)
  | startZero
  | startGeEnd (s e : Nat)
  | unrecognizedFeature (token : String)
deriving DecidableEq

/-- Exclusive upper bound of Rust's `u32`. -/
def u32Bound : Nat := 4294967296

/-- Exclusive upper bound of Rust's `usize` (64-bit target). -/
def usizeBound : Nat := 18446744073709551616

/-- Rust `str::parse` for an unsigned integer type with exclusive bound
`bound`: an optional leading `+`, then one or more ASCII digits, value in
range; anything else fails. -/
def parseRustNat (bound : Nat) (s : String) : Option Nat :=
  let t := match s.data with
    | '+' :: rest => rest
    | cs => cs
  if t.isEmpty then none
  else if t.all (fun c => c.isDigit) then
    let v := t.foldl (fun n c => n * 10 + (c.toNat - 48)) 0
    if v < bound then some v else none
  else none

/-- The `phase` match of `parse_gff_line` (never fails). -/
def phaseOfString (s : String) : Option Phase :=
  if s = "0" then some Phase.zero
  else if s = "1" then some Phase.one
  else if s = "2" then some Phase.two
  else none

/-- The recognized tokens of the `strand` match of `parse_gff_line`; any
other token is rejected (the error is raised at the use site below, as the
source's `return Err` does). -/
def strandOfString (s : String) : Option Strand :=
  if s = "+" then some Strand.positive
  else if s = "-" then some Strand.negative
  else none

/-- The `score` match of `parse_gff_line`: `"."` is absent (`some none`),
any other token must parse as a `u32` (`some (some v)`); a failed parse is
rejected (`none`, the error is raised at the use site below). -/
def parseScore (s : String) : Option (Option Nat) :=
  if s = "." then some none
  else
    match parseRustNat u32Bound s with
    | some v => some (some v)
    | none => none

/-- The recognized tokens of the `feature` match of `parse_gff_line`; any
other token is rejected (the error is raised at the use site below). -/
def featureOfString (s : String) : Option Feature :=
  if s = "start_codon" then some Feature.startCodon
  else if s = "stop_codon" then some Feature.stopCodon
  else if s = "CDS" then some Feature.cds
  else if s = "exon" then some Feature.exon
  else none

/-- Body of `parse_gff_line` after the nine fields have been extracted, in
the source's evaluation order: phase (infallible), strand, score, end,
start, the `start == 0` check, the `start - 1` conversion, the
`start >= end` check, and the feature match last. -/
def parseGffFields (scaffold source feature start end_ score strand phase
    attributes : String) : Except GffError Annotation :=
  let ph := phaseOfString phase
  match strandOfString strand with
  | none => .error (.invalidStrand strand)
  | some str =>
    match parseScore score with
    | none => .error (.invalidScore score)
    | some sc =>
      match parseRustNat usizeBound end_ with
      | none => .error (.invalidEnd end_)
      | some e =>
        match parseRustNat usizeBound start with
        | none => .error (.invalidStart start)
        | some s =>
          if s = 0 then .error .startZero
          else if s - 1 ≥ e then .error (.startGeEnd (s - 1) e)
          else
            match featureOfString feature with
            | none => .error (.unrecognizedFeature feature)
            | some f =>
              .ok ( Annotation.new scaffold source f sc str ph (s - 1) e attributes)

/-- Rust's `str::split('\t')`: the (possibly empty) stretches of characters
between tab characters, in order; an input with no tab yields one piece. -/
def splitTab : List Char → List (List Char)
  | [] => [[]]
  | c :: cs =>
    let r := splitTab cs
    if c = '\t' then [] :: r
    else
      match r with
      | [] => [[c]]
      | p :: ps => (c :: p) :: ps

/-- `parse_gff_line` from src/gff.rs: `line.split('\t').take(9)`, a count
check against 9, then the nine popped fields in column order. -/
def parse_gff_line (line : String) : Except GffError Annotation :=
  let tokens := ((splitTab line.data).map String.mk).take 9
  if tokens.length = 9 then
    parseGffFields (tokens.getD 0 "") (tokens.getD 1 "") (tokens.getD 2 "")
      (tokens.getD 3 "") (tokens.getD 4 "") (tokens.getD 5 "")
      (tokens.getD 6 "") (tokens.getD 7 "") (tokens.getD 8 "")
  else .error (.columnCount 9 tokens.length)

/-- `load_gff_file` from src/gff.rs over the stream's lines: parse each line
in order, pushing results; the first failing line aborts the parse. -/
def load_gff : List String → Except GffError (List Annotation)
  | [] => .ok []
  | l :: rest =>
    match parse_gff_line l with
    | .error e => .error e
    | .ok a =>
      match load_gff rest with
      | .error e => .error e
      | .ok rs => .ok (a :: rs)

/-! ## Sequence (FASTA) parser, src/fasta.rs -/

/-- Causes of `load_fasta` failures (the `anyhow!` messages of
src/fasta.rs): an invalid body character, a body line with no scaffold in
progress ("Ivalid FASTA file", sic), and an empty stream ("Empty FASTA
file"). -/
inductive FastaError where
  | invalidSymbol (c : Char)
  | invalidFasta
  | emptyFasta
deriving DecidableEq

/-- The per-character table of `ScaffoldBuilder::extend_from_str`. -/
def charToSymbol (c : Char) : Except FastaError Symbol :=
  if c = 'A' ∨ c = 'a' then .ok Symbol.adenine
  else if c = 'C' ∨ c = 'c' then .ok Symbol.cytosine
  else if c = 'T' ∨ c = 't' then .ok Symbol.thymine
  else if c = 'G' ∨ c = 'g' then .ok Symbol.guanine
  else if c = 'N' ∨ c = 'n' then .ok Symbol.other
  else .error (.invalidSymbol c)

/-- `extend_from_str`'s `collect::<Result<Vec<Symbol>>>`: map every
character, short-circuiting on the first invalid one. -/
def charsToSymbols : List Char → Except FastaError (List Symbol)
  | [] => .ok []
  | c :: cs =>
    match charToSymbol c with
    | .error e => .error e
    | .ok s =>
      match charsToSymbols cs with
      | .error e => .error e
      | .ok rest => .ok (s :: rest)

/-- Rust's `line.starts_with('>')`. -/
def startsWithGt (s : String) : Bool :=
  match s.data with
  | [] => false
  | c :: _ => c = '>'

/-- Rust's `&line[1..]` for a line whose first character is the one-byte
`>` marker: everything after the first character. -/
def strTail (s : String) : String :=
  String.mk (s.data.drop 1)

/-- `ScaffoldBuilder` from src/fasta.rs. -/
structure ScaffoldBuilder where
  name : String
  sequence : List Symbol

/-- `ScaffoldBuilder::new`. -/
def ScaffoldBuilder.new (name : String) : ScaffoldBuilder :=
  ⟨name, []⟩

/-- `ScaffoldBuilder::build`. -/
def ScaffoldBuilder.build (b : ScaffoldBuilder) : Scaffold :=
  Scaffold.new b.name b.sequence

/-- The `loop` of `load_fasta` over the remaining stripped lines, carrying
the optional in-progress builder and the scaffolds pushed so far; at end of
stream the last builder, if any, is sealed, otherwise the parse fails with
the empty-file error. -/
def loadFastaAux : Option ScaffoldBuilder → List Scaffold → List String →
    Except FastaError (List Scaffold)
  | b, acc, [] =>
    match b with
    | some bb => .ok (acc ++ [bb.build])
    | none => .error .emptyFasta
  | b, acc, line :: rest =>
    if startsWithGt line then
      let acc2 :=
        match b with
        | some bb => acc ++ [bb.build]
        | none => acc
      loadFastaAux (some (ScaffoldBuilder.new (strTail line))) acc2 rest
    else
      match b with
      | some bb =>
        match charsToSymbols line.data with
        | .error e => .error e
        | .ok syms => loadFastaAux (some ⟨bb.name, bb.sequence ++ syms⟩) acc rest
      | none => .error .invalidFasta

/-- `load_fasta` from src/fasta.rs over the stream's stripped lines. -/
def load_fasta (lines : List String) : Except FastaError (List Scaffold) :=
  loadFastaAux none [] lines

/-- Number of header lines (lines starting with `>`) in a stream. -/
def headerCount (lines : List String) : Nat :=
  lines.countP (fun l => startsWithGt l)

/-- Total translation of a body line's characters, for stating the spec's
grouping; coincides with `charsToSymbols` on lines it accepts. -/
def charsToSymbolsD (cs : List Char) : List Symbol :=
  cs.filterMap (fun c => (charToSymbol c).toOption)

/-- Spec-side description of the sequence format (§4.1, §8 of the spec),
for the refinement claim about `load_fasta`: the scaffold opened by the
current header, with the symbols of the following body lines appended in
order, sealed at the next header or at end of stream. -/
def fastaSpecAux (name : String) (seq : List Symbol) :
    List String → List Scaffold
  | [] => [⟨name, seq⟩]
  | l :: rest =>
    if startsWithGt l then ⟨name, seq⟩ :: fastaSpecAux (strTail l) [] rest
    else fastaSpecAux name (seq ++ charsToSymbolsD l.data) rest

/-- Spec-side description of a whole stream: one scaffold per header line,
in stream order. -/
def fastaSpec : List String → List Scaffold
  | [] => []
  | l :: rest =>
    if startsWithGt l then fastaSpecAux (strTail l) [] rest
    else fastaSpec rest

/-! ## Helper lemmas -/

/-- `parseGffFields` never produces the column-count error: that error is
raised only by the token-count check of `parse_gff_line`. -/
lemma parseGffFields_no_columnCount (sc so f st en scr str ph attrs : String)
    (err : GffError)
    (h : parseGffFields sc so f st en scr str ph attrs = .error err) :
    ∀ a b : Nat, err ≠ .columnCount a b := by
  simp only [parseGffFields] at h
  repeat' split at h
  all_goals
    first
    | exact Except.noConfusion h
    | (injection h with h2
       intro a b hc
       rw [← h2] at hc
       exact GffError.noConfusion hc)

/-- On a line `charsToSymbols` accepts, the total translation
`charsToSymbolsD` returns the same symbols. -/
lemma charsToSymbols_ok : ∀ (cs : List Char) (ys : List Symbol),
    charsToSymbols cs = .ok ys → charsToSymbolsD cs = ys := by
  intro cs
  induction cs with
  | nil =>
    intro ys h
    simp only [charsToSymbols, Except.ok.injEq] at h
    simp [charsToSymbolsD, ← h]
  | cons c cs ih =>
    intro ys h
    simp only [charsToSymbols] at h
    rcases h1 : charToSymbol c with e | s
    · rw [h1] at h
      exact Except.noConfusion h
    · rw [h1] at h
      rcases h2 : charsToSymbols cs with e | rest
      · rw [h2] at h
        exact Except.noConfusion h
      · rw [h2] at h
        simp only [Except.ok.injEq] at h
        simp [charsToSymbolsD, List.filterMap_cons, h1, Except.toOption, ← h,
          ← ih rest h2, charsToSymbolsD]

/-- Whenever the parsing loop of `load_fasta` succeeds, its result is the
scaffolds already sealed followed by the spec-side grouping of the
remaining lines. -/
lemma loadFastaAux_ok_eq : ∀ (lines : List String) (b : Option ScaffoldBuilder)
    (acc result : List Scaffold),
    loadFastaAux b acc lines = .ok result →
    result = acc ++ (match b with
      | some bb => fastaSpecAux bb.name bb.sequence lines
      | none => fastaSpec lines) := by
  intro lines
  induction lines with
  | nil =>
    intro b acc result h
    cases b with
    | none => simp [loadFastaAux] at h
    | some bb =>
      simp only [loadFastaAux, Except.ok.injEq] at h
      simp [← h, fastaSpecAux, ScaffoldBuilder.build, Scaffold.new]
  | cons l rest ih =>
    intro b acc result h
    by_cases hl : startsWithGt l
    · cases b with
      | none =>
        simp only [loadFastaAux, hl, if_true] at h
        have h2 := ih _ _ _ h
        simp only [ScaffoldBuilder.new] at h2
        simp [h2, fastaSpec, hl]
      | some bb =>
        simp only [loadFastaAux, hl, if_true] at h
        have h2 := ih _ _ _ h
        simp only [ScaffoldBuilder.new] at h2
        simp [h2, fastaSpecAux, hl, ScaffoldBuilder.build, Scaffold.new]
    · cases b with
      | none => simp [loadFastaAux, hl] at h
      | some bb =>
        simp only [loadFastaAux, hl, if_false, Bool.false_eq_true] at h
        rcases h2 : charsToSymbols l.data with e | syms
        · rw [h2] at h
          exact Except.noConfusion h
        · rw [h2] at h
          have h3 := ih _ _ _ h
          simp only at h3
          simp [h3, fastaSpecAux, hl, charsToSymbols_ok l.data syms h2]

/-- The spec-side grouping with an open scaffold yields one scaffold plus
one per remaining header line. -/
lemma fastaSpecAux_length : ∀ (lines : List String) (name : String)
    (seq : List Symbol),
    (fastaSpecAux name seq lines).length = 1 + headerCount lines := by
  intro lines
  induction lines with
  | nil => intro name seq; simp [fastaSpecAux, headerCount]
  | cons l rest ih =>
    intro name seq
    by_cases hl : startsWithGt l
    · simp only [fastaSpecAux]
      rw [if_pos hl, List.length_cons, ih]
      simp [headerCount, List.countP_cons, hl]
      omega
    · simp only [fastaSpecAux]
      rw [if_neg hl, ih]
      simp [headerCount, List.countP_cons, hl]

/-- The spec-side grouping yields one scaffold per header line. -/
lemma fastaSpec_length : ∀ lines : List String,
    (fastaSpec lines).length = headerCount lines := by
  intro lines
  induction lines with
  | nil => simp [fastaSpec, headerCount]
  | cons l rest ih =>
    by_cases hl : startsWithGt l
    · simp [fastaSpec, hl, fastaSpecAux_length, headerCount, List.countP_cons]
      omega
    · simp [fastaSpec, hl, ih, headerCount, List.countP_cons]

/-! ## Claims -/

/-- Claim C5: the `Symbol` numeric encoding is Adenine=0, Thymine=1,
Cytosine=2, Guanine=3, Other=4; the sequence-parser character table maps
A/a, C/c, T/t, G/g, N/n to the corresponding symbols, so A,C,T,G,N map to
codes 0,2,1,3,4; every other body character is a hard lexical error naming
that character. -/
theorem symbol_encoding_table :
    (symbolToU8 .adenine = 0 ∧ symbolToU8 .thymine = 1 ∧
     symbolToU8 .cytosine = 2 ∧ symbolToU8 .guanine = 3 ∧
     symbolToU8 .other = 4) ∧
    (charToSymbol 'A' = .ok .adenine ∧ charToSymbol 'a' = .ok .adenine ∧
     charToSymbol 'C' = .ok .cytosine ∧ charToSymbol 'c' = .ok .cytosine ∧
     charToSymbol 'T' = .ok .thymine ∧ charToSymbol 't' = .ok .thymine ∧
     charToSymbol 'G' = .ok .guanine ∧ charToSymbol 'g' = .ok .guanine ∧
     charToSymbol 'N' = .ok .other ∧ charToSymbol 'n' = .ok .other) ∧
    ((charToSymbol 'A').map symbolToU8 = .ok 0 ∧
     (charToSymbol 'C').map symbolToU8 = .ok 2 ∧
     (charToSymbol 'T').map symbolToU8 = .ok 1 ∧
     (charToSymbol 'G').map symbolToU8 = .ok 3 ∧
     (charToSymbol 'N').map symbolToU8 = .ok 4) ∧
    (∀ c : Char, c ∉ (['A', 'a', 'C', 'c', 'T', 't', 'G', 'g', 'N', 'n'] : List Char) →
      charToSymbol c = .error (.invalidSymbol c)) := by
  refine ⟨by decide, by decide, by decide, ?_⟩
  intro c hc
  simp only [List.mem_cons, List.not_mem_nil, or_false, not_or] at hc
  obtain ⟨h1, h2, h3, h4, h5, h6, h7, h8, h9, h10⟩ := hc
  simp [charToSymbol, h1, h2, h3, h4, h5, h6, h7, h8, h9, h10]

/-- Witness for C5 at the concrete invalid character `X`. -/
theorem symbol_encoding_table_witness :
    charToSymbol 'X' = .error (.invalidSymbol 'X') :=
  symbol_encoding_table.2.2.2 'X' (by decide)

/-- Claim C9: `Annotation::new` performs no validation: for every argument
tuple, including one with start ≥ end, it constructs a value whose
accessors return exactly the given arguments. -/
theorem annotation_new_no_validation :
    (∀ (sc so : String) (f : Feature) (scv : Option Nat) (str : Strand)
      (ph : Option Phase) (s e : Nat) (attrs : String),
      ( Annotation.new sc so f scv str ph s e attrs).scaffold = sc ∧
      ( Annotation.new sc so f scv str ph s e attrs).source = so ∧
      ( Annotation.new sc so f scv str ph s e attrs).feature = f ∧
      ( Annotation.new sc so f scv str ph s e attrs).score = scv ∧
      ( Annotation.new sc so f scv str ph s e attrs).strand = str ∧
      ( Annotation.new sc so f scv str ph s e attrs).phase = ph ∧
      ( Annotation.new sc so f scv str ph s e attrs).start = s ∧
      ( Annotation.new sc so f scv str ph s e attrs).end_ = e ∧
      ( Annotation.new sc so f scv str ph s e attrs).attributes = attrs) ∧
    (( Annotation.new "s" "src" .exon none .positive none 5 3 "a").start = 5 ∧
     ( Annotation.new "s" "src" .exon none .positive none 5 3 "a").end_ = 3 ∧
     5 ≥ 3) :=
  ⟨fun _ _ _ _ _ _ _ _ _ => ⟨rfl, rfl, rfl, rfl, rfl, rfl, rfl, rfl, rfl⟩,
   rfl, rfl, by omega⟩

/-- Claim C10: the annotation parser on an empty stream succeeds with an
empty list, unlike the sequence parser, which fails on an empty stream. -/
theorem load_gff_empty_ok :
    load_gff [] = .ok ([] : List Annotation) ∧
    load_fasta [] = .error FastaError.emptyFasta :=
  ⟨rfl, rfl⟩

/-- Claim C4: the wire record
`scaffold_1 \t JGI \t stop_codon \t 2184 \t 2186 \t . \t + \t 0 \t attrs`
parses to start=2183, end=2186, score=None, strand=Positive,
phase=Some(Zero), feature=StopCodon; in general, whenever the parse
succeeds, the 1-based inclusive wire start is converted by subtracting 1
and the wire end is used as-is as the 0-based exclusive end. -/
theorem gff_coordinate_conversion :
    parse_gff_line "scaffold_1\tJGI\tstop_codon\t2184\t2186\t.\t+\t0\tattrs" =
      .ok ( Annotation.new "scaffold_1" "JGI" .stopCodon none .positive
        (some .zero) 2183 2186 "attrs") ∧
    (∀ (sc so f st en scr str ph attrs : String) (s e : Nat) (ann : Annotation),
      parseRustNat usizeBound st = some s →
      parseRustNat usizeBound en = some e →
      parseGffFields sc so f st en scr str ph attrs = .ok ann →
      ann.start = s - 1 ∧ ann.end_ = e) := by
  refine ⟨by decide, ?_⟩
  intro sc so f st en scr str ph attrs s e ann hst hen hok
  simp only [parseGffFields] at hok
  rcases h1 : strandOfString str with _ | sv
  · simp only [h1] at hok
    exact Except.noConfusion hok
  · simp only [h1] at hok
    rcases h2 : parseScore scr with _ | scv
    · simp only [h2] at hok
      exact Except.noConfusion hok
    · simp only [h2] at hok
      simp only [hen, hst] at hok
      by_cases h5 : s = 0
      · rw [if_pos h5] at hok
        exact Except.noConfusion hok
      · rw [if_neg h5] at hok
        by_cases h6 : s - 1 ≥ e
        · rw [if_pos h6] at hok
          exact Except.noConfusion hok
        · rw [if_neg h6] at hok
          rcases h7 : featureOfString f with _ | fv
          · simp only [h7] at hok
            exact Except.noConfusion hok
          · simp only [h7] at hok
            injection hok with hh
            rw [← hh]
            exact ⟨rfl, rfl⟩

/-- Witness for C4's general conjunct, at wire start "5" and end "9". -/
theorem gff_coordinate_conversion_witness :
    ( Annotation.new "s" "src" Feature.exon none Strand.positive
      (some Phase.zero) 4 9 "a").start = 5 - 1 ∧
    ( Annotation.new "s" "src" Feature.exon none Strand.positive
      (some Phase.zero) 4 9 "a").end_ = 9 :=
  gff_coordinate_conversion.2 "s" "src" "exon" "5" "9" "." "+" "0" "a" 5 9
    ( Annotation.new "s" "src" Feature.exon none Strand.positive
      (some Phase.zero) 4 9 "a")
    (by decide) (by decide) (by decide)

/-- Claim C6: phase tokens "0", "1", "2" map to Some(Zero/One/Two); every
other phase token silently maps to None; and for records agreeing on the
other eight fields, the phase token never decides success or failure. -/
theorem gff_phase_lenient :
    phaseOfString "0" = some Phase.zero ∧
    phaseOfString "1" = some Phase.one ∧
    phaseOfString "2" = some Phase.two ∧
    (∀ s : String, s ≠ "0" → s ≠ "1" → s ≠ "2" → phaseOfString s = none) ∧
    (∀ sc so f st en scr str ph1 ph2 attrs : String,
      isOkE (parseGffFields sc so f st en scr str ph1 attrs) =
        isOkE (parseGffFields sc so f st en scr str ph2 attrs)) := by
  refine ⟨by decide, by decide, by decide, ?_, ?_⟩
  · intro s h0 h1 h2
    simp [phaseOfString, h0, h1, h2]
  · intro sc so f st en scr str ph1 ph2 attrs
    simp only [parseGffFields]
    rcases h1 : strandOfString str with _ | sv <;> simp only [h1]
    rcases h2 : parseScore scr with _ | scv <;> simp only [h2]
    rcases h3 : parseRustNat usizeBound en with _ | e <;> simp only [h3]
    rcases h4 : parseRustNat usizeBound st with _ | s <;> simp only [h4]
    by_cases h5 : s = 0
    · rw [if_pos h5, if_pos h5]
    · rw [if_neg h5, if_neg h5]
      by_cases h6 : s - 1 ≥ e
      · rw [if_pos h6, if_pos h6]
      · rw [if_neg h6, if_neg h6]
        rcases h7 : featureOfString f with _ | fv <;> simp only [h7]
        rfl

/-- Witness for C6: phase "." is absent, and replacing the phase token of
an otherwise-valid record with garbage does not change success. -/
theorem gff_phase_lenient_witness :
    phaseOfString "." = none ∧
    isOkE (parseGffFields "s" "src" "exon" "5" "9" "." "+" "0" "a") =
      isOkE (parseGffFields "s" "src" "exon" "5" "9" "." "+" "garbage" "a") :=
  ⟨gff_phase_lenient.2.2.2.1 "." (by decide) (by decide) (by decide),
   gff_phase_lenient.2.2.2.2 "s" "src" "exon" "5" "9" "." "+" "0" "garbage" "a"⟩

/-- Claim C7: a wire start token of "0" is a hard error raised before the
start-end comparison; for a start token parsing to s ≥ 1, the converted
start is s - 1, and if s - 1 ≥ end the parse fails with the error naming
both values. -/
theorem gff_start_zero_checked :
    (∀ (sc so f en scr str ph attrs : String) (sv : Strand)
      (scv : Option Nat) (e : Nat),
      strandOfString str = some sv → parseScore scr = some scv →
      parseRustNat usizeBound en = some e →
      parseGffFields sc so f "0" en scr str ph attrs = .error .startZero) ∧
    (∀ (sc so f st en scr str ph attrs : String) (sv : Strand)
      (scv : Option Nat) (s e : Nat),
      strandOfString str = some sv → parseScore scr = some scv →
      parseRustNat usizeBound en = some e → parseRustNat usizeBound st = some s →
      s ≠ 0 → s - 1 ≥ e →
      parseGffFields sc so f st en scr str ph attrs =
        .error (.startGeEnd (s - 1) e)) ∧
    (∀ (sc so f st en scr str ph attrs : String) (s : Nat) (ann : Annotation),
      parseRustNat usizeBound st = some s →
      parseGffFields sc so f st en scr str ph attrs = .ok ann →
      1 ≤ s ∧ ann.start = s - 1) := by
  refine ⟨?_, ?_, ?_⟩
  · intro sc so f en scr str ph attrs sv scv e h1 h2 h3
    have h0 : parseRustNat usizeBound "0" = some 0 := by decide
    simp [parseGffFields, h1, h2, h3, h0]
  · intro sc so f st en scr str ph attrs sv scv s e h1 h2 h3 h4 h5 h6
    simp only [parseGffFields, h1, h2, h3, h4]
    rw [if_neg h5, if_pos h6]
  · intro sc so f st en scr str ph attrs s ann hst hok
    simp only [parseGffFields] at hok
    rcases h1 : strandOfString str with _ | sv
    · simp only [h1] at hok
      exact Except.noConfusion hok
    · simp only [h1] at hok
      rcases h2 : parseScore scr with _ | scv
      · simp only [h2] at hok
        exact Except.noConfusion hok
      · simp only [h2] at hok
        rcases h3 : parseRustNat usizeBound en with _ | e
        · simp only [h3] at hok
          exact Except.noConfusion hok
        · simp only [h3, hst] at hok
          by_cases h5 : s = 0
          · rw [if_pos h5] at hok
            exact Except.noConfusion hok
          · rw [if_neg h5] at hok
            by_cases h6 : s - 1 ≥ e
            · rw [if_pos h6] at hok
              exact Except.noConfusion hok
            · rw [if_neg h6] at hok
              rcases h7 : featureOfString f with _ | fv
              · simp only [h7] at hok
                exact Except.noConfusion hok
              · simp only [h7] at hok
                injection hok with hh
                rw [← hh]
                exact ⟨by omega, rfl⟩

/-- Witness for C7 at start "0" and at start "3" with end "2". -/
theorem gff_start_zero_checked_witness :
    parseGffFields "s" "src" "exon" "0" "9" "." "+" "0" "a" =
      .error .startZero ∧
    parseGffFields "s" "src" "exon" "3" "2" "." "+" "0" "a" =
      .error (.startGeEnd (3 - 1) 2) :=
  ⟨gff_start_zero_checked.1 "s" "src" "exon" "9" "." "+" "0" "a"
     Strand.positive none 9 (by decide) (by decide) (by decide),
   gff_start_zero_checked.2.1 "s" "src" "exon" "3" "2" "." "+" "0" "a"
     Strand.positive none 3 2 (by decide) (by decide) (by decide) (by decide)
     (by decide) (by decide)⟩

/-- Claim C2 (amended): the per-line algorithm validates strand, score,
end, start and the coordinate invariant before the feature field; the
feature token is matched last, so an unrecognized-feature error is raised
exactly when every other field is valid. -/
theorem gff_feature_checked_last :
    ∀ (sc so f st en scr str ph attrs : String) (sv : Strand)
      (scv : Option Nat) (s e : Nat),
      strandOfString str = some sv → parseScore scr = some scv →
      parseRustNat usizeBound en = some e → parseRustNat usizeBound st = some s →
      s ≠ 0 → ¬(s - 1 ≥ e) →
      f ≠ "start_codon" → f ≠ "stop_codon" → f ≠ "CDS" → f ≠ "exon" →
      parseGffFields sc so f st en scr str ph attrs =
        .error (.unrecognizedFeature f) := by
  intro sc so f st en scr str ph attrs sv scv s e h1 h2 h3 h4 h5 h6 hf1 hf2 hf3 hf4
  have h7 : featureOfString f = none := by
    simp [featureOfString, hf1, hf2, hf3, hf4]
  simp only [parseGffFields, h1, h2, h3, h4, h7]
  rw [if_neg h5, if_neg h6]

/-- Counterexample to C2 as stated: a record whose feature token ("XXX")
and strand token ("*") are both invalid fails with the strand error, not
with the error naming the feature token. -/
theorem gff_strand_error_precedes_feature :
    parse_gff_line "s\tsrc\tXXX\t1\t2\t.\t*\t0\ta" =
      .error (.invalidStrand "*") ∧
    GffError.invalidStrand "*" ≠ GffError.unrecognizedFeature "XXX" :=
  ⟨by decide, by decide⟩

/-- Witness for C2's amended theorem at a record whose only invalid field
is the feature token "XXX". -/
theorem gff_feature_checked_last_witness :
    parseGffFields "s" "src" "XXX" "1" "2" "." "+" "0" "a" =
      .error (.unrecognizedFeature "XXX") :=
  gff_feature_checked_last "s" "src" "XXX" "1" "2" "." "+" "0" "a"
    Strand.positive none 1 2 (by decide) (by decide) (by decide) (by decide)
    (by decide) (by decide) (by decide) (by decide) (by decide) (by decide)

/-- Claim C1 (amended): splitting the line on the tab character must yield
at least 9 fields; fewer than 9 is a structural error reporting the
expected count (9) versus the actual count, while a line with more than 9
fields is truncated to its first 9 fields and never fails with the
column-count error. -/
theorem gff_column_count :
    (∀ line : String, (splitTab line.data).length < 9 →
      parse_gff_line line =
        .error (.columnCount 9 (splitTab line.data).length)) ∧
    (∀ (line : String) (err : GffError), 9 ≤ (splitTab line.data).length →
      parse_gff_line line = .error err → ∀ a b : Nat, err ≠ .columnCount a b) := by
  constructor
  · intro line h
    have ht : ((splitTab line.data).map String.mk).take 9 =
        (splitTab line.data).map String.mk :=
      List.take_of_length_le (by rw [List.length_map]; omega)
    have hlen : ((splitTab line.data).map String.mk).length ≠ 9 := by
      rw [List.length_map]; omega
    simp only [parse_gff_line, ht]
    rw [if_neg hlen, List.length_map]
  · intro line err h hp
    have hlen : (((splitTab line.data).map String.mk).take 9).length = 9 := by
      rw [List.length_take, List.length_map]; omega
    simp only [parse_gff_line] at hp
    rw [if_pos hlen] at hp
    exact parseGffFields_no_columnCount _ _ _ _ _ _ _ _ _ err hp

/-- Counterexample to C1 as stated: a line splitting into ten
tab-separated fields parses successfully; the ninth field becomes the
attributes and the extra field is dropped. -/
theorem gff_ten_fields_ok :
    (splitTab "s\tJGI\texon\t1\t2\t.\t+\t0\tattrs\textra".data).length = 10 ∧
    parse_gff_line "s\tJGI\texon\t1\t2\t.\t+\t0\tattrs\textra" =
      .ok ( Annotation.new "s" "JGI" .exon none .positive (some .zero)
        0 2 "attrs") :=
  ⟨by decide, by decide⟩

/-- Witness for C1's amended theorem: a two-field line raises the
column-count error, and a nine-field line with a bad strand raises an
error that is not a column-count error. -/
theorem gff_column_count_witness :
    parse_gff_line "a\tb" =
      .error (.columnCount 9 (splitTab "a\tb".data).length) ∧
    GffError.invalidStrand "*" ≠ GffError.columnCount 9 9 :=
  ⟨gff_column_count.1 "a\tb" (by decide),
   gff_column_count.2 "s\tsrc\texon\t1\t2\t.\t*\t0\ta" (.invalidStrand "*")
     (by decide) (by decide) 9 9⟩

/-- Claim C3: whenever the sequence parser succeeds, it returns exactly
one Scaffold per header line, each scaffold's symbols are the
concatenation, in input order, of the translations of its body lines, and
scaffolds appear in input order — this is the spec-side grouping
`fastaSpec`. -/
theorem load_fasta_scaffolds (lines : List String) (result : List Scaffold)
    (h : load_fasta lines = .ok result) :
    result = fastaSpec lines ∧ result.length = headerCount lines := by
  have h2 := loadFastaAux_ok_eq lines none [] result h
  simp only [List.nil_append] at h2
  exact ⟨h2, by rw [h2, fastaSpec_length]⟩

/-- Witness for C3 at a concrete two-scaffold stream. -/
theorem load_fasta_scaffolds_witness :
    ([⟨"s1", [.adenine, .cytosine]⟩, ⟨"s2", [.guanine]⟩] : List Scaffold) =
        fastaSpec [">s1", "AC", ">s2", "G"] ∧
    ([⟨"s1", [.adenine, .cytosine]⟩, ⟨"s2", [.guanine]⟩] : List Scaffold).length =
        headerCount [">s1", "AC", ">s2", "G"] :=
  load_fasta_scaffolds [">s1", "AC", ">s2", "G"]
    [⟨"s1", [.adenine, .cytosine]⟩, ⟨"s2", [.guanine]⟩] (by decide)

/-- Claim C8 (amended): the sequence parser fails with the
no-scaffold-in-progress error on every stream whose first line is a body
line (which covers every nonempty stream with zero header lines), fails
with the empty-input error on the empty stream, fails on every stream
with zero header lines, and never returns an empty scaffold list as a
success. -/
theorem load_fasta_failure_modes :
    load_fasta ([] : List String) = .error FastaError.emptyFasta ∧
    (∀ (l : String) (rest : List String), startsWithGt l = false →
      load_fasta (l :: rest) = .error FastaError.invalidFasta) ∧
    (∀ lines : List String, headerCount lines = 0 →
      ∃ err : FastaError, load_fasta lines = .error err) ∧
    (∀ (lines : List String) (result : List Scaffold),
      load_fasta lines = .ok result → result ≠ []) := by
  have hbody : ∀ (l : String) (rest : List String), startsWithGt l = false →
      load_fasta (l :: rest) = .error FastaError.invalidFasta := by
    intro l rest h
    simp [load_fasta, loadFastaAux, h]
  have hzero : ∀ lines : List String, headerCount lines = 0 →
      ∃ err : FastaError, load_fasta lines = .error err := by
    intro lines h
    cases lines with
    | nil => exact ⟨.emptyFasta, rfl⟩
    | cons l rest =>
      have hl : startsWithGt l = false := by
        simp only [headerCount, List.countP_cons] at h
        by_cases hc : startsWithGt l
        · simp [hc] at h
        · simp [hc]
      exact ⟨.invalidFasta, hbody l rest hl⟩
  refine ⟨rfl, hbody, hzero, ?_⟩
  intro lines result h hres
  have h2 := loadFastaAux_ok_eq lines none [] result h
  simp only [List.nil_append] at h2
  have h3 : headerCount lines = 0 := by
    rw [← fastaSpec_length, ← h2, hres]
    rfl
  obtain ⟨err, herr⟩ := hzero lines h3
  rw [h] at herr
  exact Except.noConfusion herr

/-- Witness for C8's amended theorem at a concrete body-first stream. -/
theorem load_fasta_failure_modes_witness :
    load_fasta (("ACGT" : String) :: []) = .error FastaError.invalidFasta :=
  load_fasta_failure_modes.2.1 "ACGT" [] (by decide)

/-- Counterexample to C8 as stated: a nonempty stream with zero header
lines fails with the no-scaffold-in-progress error, not with the
empty-input error the claim assigns to zero-header streams. -/
theorem fasta_zero_header_error_name :
    headerCount ["A"] = 0 ∧
    load_fasta ["A"] = .error FastaError.invalidFasta ∧
    FastaError.invalidFasta ≠ FastaError.emptyFasta :=
  ⟨by decide, by decide, by decide⟩

end Ncrs
